import Mathlib

/-!
Verification of the `recti` geometric-primitives kernel (intervals, points,
rectangles, orthogonal segments and the generic capability-based algebra on
top of them).  Each C++ value type is embedded as a Lean structure over `Int`
(the instantiation `T = int` used throughout the repository's tests), and each
method as an executable Lean function translated directly from the source in
`include/recti/`.
-/

namespace Recti

/-- An interval `[lb, ub]`, from `include/recti/interval.hpp`. -/
structure Interval where
  lb : Int
  ub : Int
deriving DecidableEq

/-- The default constructor `Interval()` yields the invalid sentinel `[1, 0]`. -/
def Interval.defaultInterval : Interval := ⟨1, 0⟩

/-- `is_invalid()`: `lb > ub`. -/
def Interval.is_invalid (i : Interval) : Bool := decide (i.ub < i.lb)

/-- `is_valid()`: `lb <= ub`. -/
def Interval.is_valid (i : Interval) : Bool := decide (i.lb ≤ i.ub)

/-- `width()`: `ub - lb`. -/
def Interval.width (i : Interval) : Int := i.ub - i.lb

/-- `is_empty()`: `lb == ub`. -/
def Interval.is_empty (i : Interval) : Bool := decide (i.lb = i.ub)

/-- `overlaps(other)`: `lb <= other.ub && other.lb <= ub`. -/
def Interval.overlaps (i other : Interval) : Bool :=
  decide (i.lb ≤ other.ub ∧ other.lb ≤ i.ub)

/-- `overlaps(value)` (scalar overload): `lb <= value && value <= ub`. -/
def Interval.overlaps_val (i : Interval) (value : Int) : Bool :=
  decide (i.lb ≤ value ∧ value ≤ i.ub)

/-- `contains(other)`: `lb <= other.lb && other.ub <= ub`. -/
def Interval.contains (i other : Interval) : Bool :=
  decide (i.lb ≤ other.lb ∧ other.ub ≤ i.ub)

/-- `contains(value)` (scalar overload): `lb <= value && value <= ub`. -/
def Interval.contains_val (i : Interval) (value : Int) : Bool :=
  decide (i.lb ≤ value ∧ value ≤ i.ub)

/-- `intersect_with(other)`: the overlap region if the two intervals overlap,
otherwise the default-constructed (invalid) interval. -/
def Interval.intersect_with (i other : Interval) : Interval :=
  if i.overlaps other then
    ⟨max i.lb other.lb, min i.ub other.ub⟩
  else
    Interval.defaultInterval

/-- `min_dist_with(other)`: 0 when overlapping, else the gap between the
nearer endpoints. -/
def Interval.min_dist_with (i other : Interval) : Int :=
  if i.overlaps other then 0
  else if i.ub < other.lb then other.lb - i.ub
  else i.lb - other.ub

/-- `min_dist_with(value)` (scalar overload). -/
def Interval.min_dist_with_val (i : Interval) (value : Int) : Int :=
  if i.contains_val value then 0
  else if value < i.lb then i.lb - value
  else value - i.ub

/-- `get_center()`: `(lb + ub) / 2` with C++ integer division (truncation
toward zero). -/
def Interval.get_center (i : Interval) : Int := (i.lb + i.ub).tdiv 2

/-- `measure()`: the width. -/
def Interval.measure (i : Interval) : Int := i.width

/-- `lower_corner()`: the lower bound. -/
def Interval.lower_corner (i : Interval) : Int := i.lb

/-- `upper_corner()`: the upper bound. -/
def Interval.upper_corner (i : Interval) : Int := i.ub

/-- `hull_with(other)`: `[min(lb, lb'), max(ub, ub')]`. -/
def Interval.hull_with (i other : Interval) : Interval :=
  ⟨min i.lb other.lb, max i.ub other.ub⟩

/-- `hull_with(value)` (scalar overload). -/
def Interval.hull_with_val (i : Interval) (value : Int) : Interval :=
  ⟨min i.lb value, max i.ub value⟩

/-- `enlarge(amount)`: `[lb - amount, ub + amount]`. -/
def Interval.enlarge (i : Interval) (amount : Int) : Interval :=
  ⟨i.lb - amount, i.ub + amount⟩

/-- A point in 2-D space, from `include/recti/point.hpp`. -/
structure Point where
  x : Int
  y : Int
deriving DecidableEq

/-- `width()`: always 1 (unit-measure convention). -/
def Point.width (_ : Point) : Int := 1

/-- `height()`: always 1. -/
def Point.height (_ : Point) : Int := 1

/-- `area()`: always 1. -/
def Point.area (_ : Point) : Int := 1

/-- `overlaps(other)`: coordinate-wise equality. -/
def Point.overlaps (p other : Point) : Bool :=
  decide (p.x = other.x ∧ p.y = other.y)

/-- `contains(other)`: same as `overlaps`. -/
def Point.contains (p other : Point) : Bool := p.overlaps other

/-- `contains(value)` (scalar overload): both coordinates equal the value. -/
def Point.contains_val (p : Point) (value : Int) : Bool :=
  decide (p.x = value ∧ p.y = value)

/-- `min_dist_with(other)`: the Manhattan distance. -/
def Point.min_dist_with (p other : Point) : Int :=
  |p.x - other.x| + |p.y - other.y|

/-- `get_center()`: the point itself. -/
def Point.get_center (p : Point) : Point := p

/-- `measure()`: the area, i.e. 1. -/
def Point.measure (p : Point) : Int := p.area

/-- `lower_corner()`: the point itself. -/
def Point.lower_corner (p : Point) : Point := p

/-- `upper_corner()`: the point itself. -/
def Point.upper_corner (p : Point) : Point := p

/-- `hull_with(other)`: the pair of intervals spanning both points. -/
def Point.hull_with (p other : Point) : Interval × Interval :=
  (⟨min p.x other.x, max p.x other.x⟩, ⟨min p.y other.y, max p.y other.y⟩)

/-- `enlarge(amount)`: the pair of intervals of a box centred on the point. -/
def Point.enlarge (p : Point) (amount : Int) : Interval × Interval :=
  (⟨p.x - amount, p.x + amount⟩, ⟨p.y - amount, p.y + amount⟩)

/-- `operator+(vec)`: translation of a point by a displacement; the C++
parameter is typed `Point<U>` and named `vec`. -/
def Point.add (p vec : Point) : Point := ⟨p.x + vec.x, p.y + vec.y⟩

/-- `operator-(vec)` and `operator-(other)`: both overloads compute the
coordinate-wise difference of two points. -/
def Point.sub (p vec : Point) : Point := ⟨p.x - vec.x, p.y - vec.y⟩

/-- The loop body of `nearest_point_to`: scan the remaining candidates,
keeping the current nearest point and its distance, replacing them only on a
strictly smaller distance. -/
def nearestLoop (p : Point) : List Point → Point → Int → Point
  | [], nearest, _ => nearest
  | c :: rest, nearest, min_d =>
    let dist := p.min_dist_with c
    if dist < min_d then nearestLoop p rest c dist
    else nearestLoop p rest nearest min_d

/-- `nearest_point_to(point, candidates)`: nullptr (`none`) on an empty
candidate list, otherwise a linear scan starting from the first candidate. -/
def nearest_point_to (p : Point) (candidates : List Point) : Option Point :=
  match candidates with
  | [] => none
  | c :: rest => some (nearestLoop p rest c (p.min_dist_with c))

/-- An axis-aligned rectangle, from `include/recti/recti.hpp`. -/
structure Rectangle where
  x_interval : Interval
  y_interval : Interval
deriving DecidableEq

/-- `ll()`: the lower-left point. -/
def Rectangle.ll (r : Rectangle) : Point := ⟨r.x_interval.lb, r.y_interval.lb⟩

/-- `ur()`: the upper-right point. -/
def Rectangle.ur (r : Rectangle) : Point := ⟨r.x_interval.ub, r.y_interval.ub⟩

/-- `width()`: the width of the x-interval. -/
def Rectangle.width (r : Rectangle) : Int := r.x_interval.width

/-- `height()`: the width of the y-interval. -/
def Rectangle.height (r : Rectangle) : Int := r.y_interval.width

/-- `area()`: width times height. -/
def Rectangle.area (r : Rectangle) : Int := r.width * r.height

/-- `flip()`: swap the x- and y-intervals. -/
def Rectangle.flip (r : Rectangle) : Rectangle := ⟨r.y_interval, r.x_interval⟩

/-- `overlaps(other)`: component-wise interval overlap on both axes. -/
def Rectangle.overlaps (r other : Rectangle) : Bool :=
  r.x_interval.overlaps other.x_interval && r.y_interval.overlaps other.y_interval

/-- `contains(other)`: component-wise interval containment on both axes. -/
def Rectangle.contains (r other : Rectangle) : Bool :=
  r.x_interval.contains other.x_interval && r.y_interval.contains other.y_interval

/-- `contains(point)`: each axis interval contains the point's coordinate. -/
def Rectangle.contains_pt (r : Rectangle) (point : Point) : Bool :=
  r.x_interval.contains_val point.x && r.y_interval.contains_val point.y

/-- `min_dist_with(other)`: the sum of the per-axis interval distances. -/
def Rectangle.min_dist_with (r other : Rectangle) : Int :=
  r.x_interval.min_dist_with other.x_interval +
    r.y_interval.min_dist_with other.y_interval

/-- `min_dist_with(point)`: the sum of the per-axis scalar distances. -/
def Rectangle.min_dist_with_pt (r : Rectangle) (point : Point) : Int :=
  r.x_interval.min_dist_with_val point.x + r.y_interval.min_dist_with_val point.y

/-- `get_center()`: the point of the per-axis centers. -/
def Rectangle.get_center (r : Rectangle) : Point :=
  ⟨r.x_interval.get_center, r.y_interval.get_center⟩

/-- `measure()`: the area. -/
def Rectangle.measure (r : Rectangle) : Int := r.area

/-- `lower_corner()`: the lower-left point. -/
def Rectangle.lower_corner (r : Rectangle) : Point := r.ll

/-- `upper_corner()`: the upper-right point. -/
def Rectangle.upper_corner (r : Rectangle) : Point := r.ur

/-- A vertical segment (an x-coordinate and a y-interval), from
`include/recti/recti.hpp`. -/
structure VSegment where
  x : Int
  y_interval : Interval
deriving DecidableEq

/-- A horizontal segment (an x-interval and a y-coordinate), from
`include/recti/recti.hpp`. -/
structure HSegment where
  x_interval : Interval
  y : Int
deriving DecidableEq

/-- `VSegment::flip()`: the HSegment built from the y-interval and the
x-coordinate. -/
def VSegment.flip (s : VSegment) : HSegment := ⟨s.y_interval, s.x⟩

/-- `VSegment::overlaps(other)`: equal x plus y-interval overlap. -/
def VSegment.overlaps (s other : VSegment) : Bool :=
  decide (s.x = other.x) && s.y_interval.overlaps other.y_interval

/-- `VSegment::contains(other)`: equal x plus y-interval containment. -/
def VSegment.contains (s other : VSegment) : Bool :=
  decide (s.x = other.x) && s.y_interval.contains other.y_interval

/-- `VSegment::contains(point)`: equal x plus the y-interval containing
the point's y. -/
def VSegment.contains_pt (s : VSegment) (point : Point) : Bool :=
  decide (s.x = point.x) && s.y_interval.contains_val point.y

/-- `HSegment::flip()`: the VSegment built from the y-coordinate and the
x-interval. -/
def HSegment.flip (s : HSegment) : VSegment := ⟨s.y, s.x_interval⟩

/-- `HSegment::overlaps(other)`: equal y plus x-interval overlap. -/
def HSegment.overlaps (s other : HSegment) : Bool :=
  decide (s.y = other.y) && s.x_interval.overlaps other.x_interval

/-- `HSegment::contains(other)`: equal y plus x-interval containment. -/
def HSegment.contains (s other : HSegment) : Bool :=
  decide (s.y = other.y) && s.x_interval.contains other.x_interval

/-- `HSegment::contains(point)`: equal y plus the x-interval containing
the point's x. -/
def HSegment.contains_pt (s : HSegment) (point : Point) : Bool :=
  decide (s.y = point.y) && s.x_interval.contains_val point.x

/-- Modelled from the spec: `include/recti/generic.hpp` is included by the
umbrella header and exercised by the tests but is not among the provided
sources.  The spec describes it as capability-dispatched free functions with
no common base class; each capability is modelled as a typeclass holding the
corresponding method. -/
class GeoOverlap (α : Type) where
  overlaps : α → α → Bool

/-- Modelled from the spec: the containment capability of the generic layer
of `generic.hpp`. -/
class GeoContain (α : Type) where
  contains : α → α → Bool

/-- Modelled from the spec: the minimum-distance capability of the generic
layer of `generic.hpp`. -/
class GeoMinDist (α : Type) where
  min_dist_with : α → α → Int

/-- Modelled from the spec: the center capability of the generic layer of
`generic.hpp` (the center's type varies with the shape). -/
class GeoCenter (α : Type) (γ : outParam Type) where
  get_center : α → γ

/-- Modelled from the spec: the measure capability of the generic layer of
`generic.hpp`. -/
class GeoMeasure (α : Type) where
  measure : α → Int

/-- Modelled from the spec: the corner capabilities of the generic layer of
`generic.hpp`. -/
class GeoCorner (α : Type) (γ : outParam Type) where
  lower_corner : α → γ
  upper_corner : α → γ

/-- Modelled from the spec: the free function `overlap(a, b)` forwards to
`a.overlaps(b)`. -/
def overlap {α : Type} [GeoOverlap α] (a b : α) : Bool := GeoOverlap.overlaps a b

/-- Modelled from the spec: the free function `contain(a, b)` forwards to
`a.contains(b)`. -/
def contain {α : Type} [GeoContain α] (a b : α) : Bool := GeoContain.contains a b

/-- Modelled from the spec: the free function `min_dist(a, b)` forwards to
`a.min_dist_with(b)`. -/
def min_dist {α : Type} [GeoMinDist α] (a b : α) : Int := GeoMinDist.min_dist_with a b

/-- Modelled from the spec: the free function `center(a)` forwards to
`a.get_center()`. -/
def center {α γ : Type} [GeoCenter α γ] (a : α) : γ := GeoCenter.get_center a

/-- Modelled from the spec: the free function `measure_of(a)` forwards to
`a.measure()`. -/
def measure_of {α : Type} [GeoMeasure α] (a : α) : Int := GeoMeasure.measure a

/-- Modelled from the spec: the free function `lower(a)` forwards to
`a.lower_corner()`. -/
def lower {α γ : Type} [GeoCorner α γ] (a : α) : γ := GeoCorner.lower_corner a

/-- Modelled from the spec: the free function `upper(a)` forwards to
`a.upper_corner()`. -/
def upper {α γ : Type} [GeoCorner α γ] (a : α) : γ := GeoCorner.upper_corner a

instance : GeoOverlap Interval := ⟨Interval.overlaps⟩

instance : GeoContain Interval := ⟨Interval.contains⟩

instance : GeoMinDist Interval := ⟨Interval.min_dist_with⟩

instance : GeoCenter Interval Int := ⟨Interval.get_center⟩

instance : GeoMeasure Interval := ⟨Interval.measure⟩

instance : GeoCorner Interval Int := ⟨Interval.lower_corner, Interval.upper_corner⟩

instance : GeoOverlap Point := ⟨Point.overlaps⟩

instance : GeoContain Point := ⟨Point.contains⟩

instance : GeoMinDist Point := ⟨Point.min_dist_with⟩

instance : GeoCenter Point Point := ⟨Point.get_center⟩

instance : GeoMeasure Point := ⟨Point.measure⟩

instance : GeoCorner Point Point := ⟨Point.lower_corner, Point.upper_corner⟩

instance : GeoOverlap Rectangle := ⟨Rectangle.overlaps⟩

instance : GeoContain Rectangle := ⟨Rectangle.contains⟩

instance : GeoMinDist Rectangle := ⟨Rectangle.min_dist_with⟩

instance : GeoCenter Rectangle Point := ⟨Rectangle.get_center⟩

instance : GeoMeasure Rectangle := ⟨Rectangle.measure⟩

instance : GeoCorner Rectangle Point := ⟨Rectangle.lower_corner, Rectangle.upper_corner⟩

instance : GeoOverlap VSegment := ⟨VSegment.overlaps⟩

instance : GeoContain VSegment := ⟨VSegment.contains⟩

instance : GeoOverlap HSegment := ⟨HSegment.overlaps⟩

instance : GeoContain HSegment := ⟨HSegment.contains⟩

/-- The property of being the first-encountered minimum-distance candidate:
`c` occurs in the list, its distance to `p` is minimal over the whole list,
and every candidate listed before its first qualifying occurrence is at a
strictly larger distance. -/
def firstMinIn (p : Point) (cs : List Point) (c : Point) : Prop :=
  ∃ l1 l2, cs = l1 ++ c :: l2 ∧
    (∀ q ∈ cs, p.min_dist_with c ≤ p.min_dist_with q) ∧
    (∀ q ∈ l1, p.min_dist_with c < p.min_dist_with q)

example : (Interval.mk 1 5).overlaps ⟨3, 7⟩ = true := by decide
example : (Interval.mk 1 5).overlaps ⟨6, 8⟩ = false := by decide
example : (Interval.mk 1 5).min_dist_with ⟨6, 8⟩ = 1 := by decide
example : (Interval.mk 1 5).min_dist_with ⟨10, 15⟩ = 5 := by decide
example : (Interval.mk 1 5).intersect_with ⟨3, 7⟩ = ⟨3, 5⟩ := by decide
example : (Interval.mk 1 5).get_center = 3 := by decide
example : (Interval.mk 1 5).measure = 4 := by decide
example : (Point.mk 3 4).min_dist_with ⟨5, 6⟩ = 4 := by decide
example : (Rectangle.mk ⟨1, 5⟩ ⟨2, 6⟩).area = 16 := by decide
example : (Rectangle.mk ⟨1, 5⟩ ⟨2, 6⟩).get_center = ⟨3, 4⟩ := by decide
example : (Rectangle.mk ⟨1, 5⟩ ⟨2, 6⟩).overlaps ⟨⟨3, 7⟩, ⟨4, 8⟩⟩ = true := by decide
example : (VSegment.mk 5 ⟨1, 10⟩).flip = HSegment.mk ⟨1, 10⟩ 5 := by decide
example :
    nearest_point_to ⟨3, 4⟩ [⟨1, 1⟩, ⟨5, 5⟩, ⟨3, 3⟩, ⟨10, 10⟩] = some ⟨3, 3⟩ := by
  decide

/-- Claim C1: the generic free functions delegate to the corresponding
capability methods on every shape type that supplies them: `overlap` to
`overlaps`, `contain` to `contains`, `min_dist` to `min_dist_with`,
`center` to `get_center`, `measure_of` to `measure`, and `lower`/`upper`
to `lower_corner`/`upper_corner`, for Interval, Point, Rectangle, and the
two segment types. -/
theorem generic_delegates_to_methods :
    ∀ (a b : Interval) (p q : Point) (r s : Rectangle)
      (v w : VSegment) (g k : HSegment),
      overlap a b = a.overlaps b ∧ contain a b = a.contains b ∧
      min_dist a b = a.min_dist_with b ∧ center a = a.get_center ∧
      measure_of a = a.measure ∧ lower a = a.lower_corner ∧
      upper a = a.upper_corner ∧
      overlap p q = p.overlaps q ∧ contain p q = p.contains q ∧
      min_dist p q = p.min_dist_with q ∧ center p = p.get_center ∧
      measure_of p = p.measure ∧ lower p = p.lower_corner ∧
      upper p = p.upper_corner ∧
      overlap r s = r.overlaps s ∧ contain r s = r.contains s ∧
      min_dist r s = r.min_dist_with s ∧ center r = r.get_center ∧
      measure_of r = r.measure ∧ lower r = r.lower_corner ∧
      upper r = r.upper_corner ∧
      overlap v w = v.overlaps w ∧ contain v w = v.contains w ∧
      overlap g k = g.overlaps k ∧ contain g k = g.contains k := by
  intro a b p q r s v w g k
  exact ⟨rfl, rfl, rfl, rfl, rfl, rfl, rfl, rfl, rfl, rfl, rfl, rfl, rfl, rfl,
    rfl, rfl, rfl, rfl, rfl, rfl, rfl, rfl, rfl, rfl, rfl⟩

/-- Claim C4: segment flip is an exact inverse pair: flipping a VSegment
yields the HSegment whose x-interval is the VSegment's y-interval and whose
y is the VSegment's x, and flipping twice is the identity on both segment
kinds. -/
theorem segment_flip_involution :
    ∀ (s : VSegment) (g : HSegment),
      s.flip = HSegment.mk s.y_interval s.x ∧
      s.flip.flip = s ∧ g.flip.flip = g := by
  intro s g
  exact ⟨rfl, rfl, rfl⟩

/-- Claim C7: a point's width, height, area and measure are all the constant
1, whatever its coordinates. -/
theorem point_unit_measure :
    ∀ p : Point, p.width = 1 ∧ p.height = 1 ∧ p.area = 1 ∧ p.measure = 1 := by
  intro p
  exact ⟨rfl, rfl, rfl, rfl⟩

/-- Claim C8: point translation and difference are coordinate-wise: adding a
displacement adds each coordinate, and both subtraction overloads subtract
each coordinate. -/
theorem point_translation_coordinatewise :
    ∀ p vec q : Point,
      p.add vec = Point.mk (p.x + vec.x) (p.y + vec.y) ∧
      p.sub vec = Point.mk (p.x - vec.x) (p.y - vec.y) ∧
      p.sub q = Point.mk (p.x - q.x) (p.y - q.y) := by
  intro p vec q
  exact ⟨rfl, rfl, rfl⟩

/-- Helper: an interval minimum distance is never negative. -/
theorem Interval.min_dist_with_nonneg (a b : Interval) : 0 ≤ a.min_dist_with b := by
  simp only [Interval.min_dist_with]
  split_ifs with h1 h2
  · omega
  · omega
  · simp only [Interval.overlaps, decide_eq_true_eq] at h1
    rcases not_and_or.mp h1 with h | h <;> omega

/-- Helper: an interval minimum distance is zero exactly when the intervals
overlap. -/
theorem Interval.min_dist_with_eq_zero_iff (a b : Interval) :
    a.min_dist_with b = 0 ↔ a.overlaps b = true := by
  simp only [Interval.min_dist_with]
  split_ifs with h1 h2
  · simp [h1]
  · exact iff_of_false (by omega) h1
  · refine iff_of_false ?_ h1
    simp only [Interval.overlaps, decide_eq_true_eq] at h1
    rcases not_and_or.mp h1 with h | h <;> omega

/-- Claim C2: for all intervals (valid or not) the minimum distance is
non-negative and vanishes exactly on overlap, and the same holds for all
rectangles. -/
theorem min_dist_nonneg_and_zero_iff_overlap :
    (∀ a b : Interval, 0 ≤ a.min_dist_with b ∧
      (a.min_dist_with b = 0 ↔ a.overlaps b = true)) ∧
    (∀ r s : Rectangle, 0 ≤ r.min_dist_with s ∧
      (r.min_dist_with s = 0 ↔ r.overlaps s = true)) := by
  constructor
  · intro a b
    exact ⟨Interval.min_dist_with_nonneg a b, Interval.min_dist_with_eq_zero_iff a b⟩
  · intro r s
    have hx := Interval.min_dist_with_nonneg r.x_interval s.x_interval
    have hy := Interval.min_dist_with_nonneg r.y_interval s.y_interval
    have ix := Interval.min_dist_with_eq_zero_iff r.x_interval s.x_interval
    have iy := Interval.min_dist_with_eq_zero_iff r.y_interval s.y_interval
    simp only [Rectangle.min_dist_with, Rectangle.overlaps, Bool.and_eq_true]
    constructor
    · omega
    · constructor
      · intro h
        exact ⟨ix.mp (by omega), iy.mp (by omega)⟩
      · rintro ⟨h1, h2⟩
        have e1 := ix.mpr h1
        have e2 := iy.mpr h2
        omega

/-- Claim C3: intersection of overlapping intervals is the overlap region
`[max(lb, lb'), min(ub, ub')]`; otherwise it is the canonical invalid
interval `[1, 0]`, detectable via `is_invalid`; the operation is a total
function and never signals an error. -/
theorem intersect_with_spec :
    ∀ a b : Interval,
      a.intersect_with b =
        (if a.overlaps b then Interval.mk (max a.lb b.lb) (min a.ub b.ub)
         else Interval.mk 1 0) ∧
      (a.overlaps b = false → (a.intersect_with b).is_invalid = true) := by
  intro a b
  refine ⟨rfl, ?_⟩
  intro h
  simp [Interval.intersect_with, h, Interval.defaultInterval, Interval.is_invalid]

/-- Witness for C3 at the non-overlapping pair `[1,5]`, `[10,15]`. -/
theorem intersect_with_spec_witness :
    ((Interval.mk 1 5).intersect_with ⟨10, 15⟩).is_invalid = true :=
  (intersect_with_spec ⟨1, 5⟩ ⟨10, 15⟩).2 (by decide)

/-- Claim C5: the interval hull equals `[min(lb, lb'), max(ub, ub')]` and
contains both operands; the rectangle composed from the hull of two points
contains both points. -/
theorem hull_with_spec_and_contains :
    ∀ (a b : Interval) (p q : Point),
      a.hull_with b = Interval.mk (min a.lb b.lb) (max a.ub b.ub) ∧
      (a.hull_with b).contains a = true ∧
      (a.hull_with b).contains b = true ∧
      (Rectangle.mk (p.hull_with q).1 (p.hull_with q).2).contains_pt p = true ∧
      (Rectangle.mk (p.hull_with q).1 (p.hull_with q).2).contains_pt q = true := by
  intro a b p q
  refine ⟨rfl, ?_, ?_, ?_, ?_⟩ <;>
    simp [Interval.hull_with, Interval.contains, Point.hull_with,
      Rectangle.contains_pt, Interval.contains_val]

/-- Claim C9: `Interval::enlarge` returns `[lb - amount, ub + amount]` for
every amount; a negative amount whose magnitude exceeds half the width
silently yields an invalid interval; `Point::enlarge` returns the interval
pair `([x - amount, x + amount], [y - amount, y + amount])`. -/
theorem enlarge_spec :
    ∀ (i : Interval) (amount : Int) (p : Point),
      i.enlarge amount = Interval.mk (i.lb - amount) (i.ub + amount) ∧
      (amount < 0 → i.width < 2 * (-amount) →
        (i.enlarge amount).is_invalid = true) ∧
      p.enlarge amount =
        (Interval.mk (p.x - amount) (p.x + amount),
         Interval.mk (p.y - amount) (p.y + amount)) := by
  intro i amount p
  refine ⟨rfl, ?_, rfl⟩
  intro h1 h2
  simp only [Interval.width] at h2
  simp only [Interval.enlarge, Interval.is_invalid, decide_eq_true_eq]
  omega

/-- Witness for C9: shrinking `[0, 10]` by 6 on each side gives the invalid
interval `[6, 4]`. -/
theorem enlarge_spec_witness :
    ((Interval.mk 0 10).enlarge (-6)).is_invalid = true :=
  (enlarge_spec ⟨0, 10⟩ (-6) ⟨0, 0⟩).2.1 (by decide) (by decide)

/-- Claim C10: hulling never propagates invalidity: if at least one operand
is a valid interval then the hull is valid. -/
theorem hull_with_preserves_validity :
    ∀ a b : Interval, (a.is_valid = true ∨ b.is_valid = true) →
      (a.hull_with b).is_valid = true := by
  intro a b h
  simp only [Interval.is_valid, decide_eq_true_eq] at h
  simp only [Interval.hull_with, Interval.is_valid, decide_eq_true_eq]
  rcases h with h | h <;> omega

/-- Witness for C10: hulling the valid `[2, 5]` with the invalid sentinel
`[1, 0]` yields a valid interval. -/
theorem hull_with_preserves_validity_witness :
    ((Interval.mk 2 5).hull_with ⟨1, 0⟩).is_valid = true :=
  hull_with_preserves_validity ⟨2, 5⟩ ⟨1, 0⟩ (Or.inl (by decide))

/-- Helper: when the carried distance equals the distance of the current
nearest candidate, the scan loop returns the first-encountered minimum of the
current nearest followed by the remaining candidates. -/
theorem nearestLoop_firstMin (p : Point) :
    ∀ (rest : List Point) (best : Point) (bd : Int),
      bd = p.min_dist_with best →
      firstMinIn p (best :: rest) (nearestLoop p rest best bd) := by
  intro rest
  induction rest with
  | nil =>
    intro best bd hbd
    refine ⟨[], [], rfl, ?_, ?_⟩
    · intro q hq
      have hqb : q = best := List.mem_singleton.mp hq
      subst hqb
      exact le_refl _
    · intro q hq
      exact absurd hq (List.not_mem_nil q)
  | cons c rest ih =>
    intro best bd hbd
    subst hbd
    simp only [nearestLoop]
    split_ifs with h
    · obtain ⟨l1, l2, heq, hmin, hstrict⟩ := ih c (p.min_dist_with c) rfl
      refine ⟨best :: l1, l2, ?_, ?_, ?_⟩
      · rw [List.cons_append, ← heq]
      · intro q hq
        rcases List.mem_cons.mp hq with rfl | hq
        · exact le_trans (hmin c (List.mem_cons_self c rest)) (le_of_lt h)
        · exact hmin q hq
      · intro q hq
        rcases List.mem_cons.mp hq with rfl | hq
        · exact lt_of_le_of_lt (hmin c (List.mem_cons_self c rest)) h
        · exact hstrict q hq
    · have hcb : p.min_dist_with best ≤ p.min_dist_with c := le_of_not_lt h
      obtain ⟨l1, l2, heq, hmin, hstrict⟩ := ih best (p.min_dist_with best) rfl
      cases l1 with
      | nil =>
        simp only [List.nil_append] at heq
        injection heq with h1 h2
        refine ⟨[], c :: rest, ?_, ?_, ?_⟩
        · rw [List.nil_append, ← h1]
        · intro q hq
          rcases List.mem_cons.mp hq with rfl | hq
          · rw [← h1]
          · rcases List.mem_cons.mp hq with rfl | hq
            · rw [← h1]; exact hcb
            · exact hmin q (List.mem_cons_of_mem best hq)
        · intro q hq
          exact absurd hq (List.not_mem_nil q)
      | cons b l1' =>
        rw [List.cons_append] at heq
        injection heq with h1 h2
        subst h1
        have hrbest := hstrict best (List.mem_cons_self best l1')
        refine ⟨best :: c :: l1', l2, ?_, ?_, ?_⟩
        · rw [List.cons_append, List.cons_append, ← h2]
        · intro q hq
          rcases List.mem_cons.mp hq with rfl | hq
          · exact le_of_lt hrbest
          · rcases List.mem_cons.mp hq with rfl | hq
            · exact le_of_lt (lt_of_lt_of_le hrbest hcb)
            · exact hmin q (List.mem_cons_of_mem best hq)
        · intro q hq
          rcases List.mem_cons.mp hq with rfl | hq
          · exact hrbest
          · rcases List.mem_cons.mp hq with rfl | hq
            · exact lt_of_lt_of_le hrbest hcb
            · exact hstrict q (List.mem_cons_of_mem best hq)

/-- Claim C6: the nearest-point search returns `none` exactly on an empty
candidate list, and any returned candidate is in the list, attains the
minimal `min_dist_with` to the query point over the whole list, and is the
first-encountered such minimum in list order. -/
theorem nearest_point_to_spec :
    ∀ (p : Point) (candidates : List Point),
      (nearest_point_to p candidates = none ↔ candidates = []) ∧
      (∀ c, nearest_point_to p candidates = some c →
        firstMinIn p candidates c) := by
  intro p candidates
  cases candidates with
  | nil =>
    refine ⟨by simp [nearest_point_to], ?_⟩
    intro c h
    simp [nearest_point_to] at h
  | cons c0 rest =>
    refine ⟨by simp [nearest_point_to], ?_⟩
    intro c h
    simp only [nearest_point_to, Option.some.injEq] at h
    subst h
    exact nearestLoop_firstMin p rest c0 (p.min_dist_with c0) rfl

/-- Witness for C6 at the spec's concrete scenario: the first-encountered
nearest candidate to `(3, 4)` among `(1,1), (5,5), (3,3), (10,10)` is
`(3, 3)`. -/
theorem nearest_point_to_spec_witness :
    nearest_point_to ⟨3, 4⟩ [⟨1, 1⟩, ⟨5, 5⟩, ⟨3, 3⟩, ⟨10, 10⟩] = some ⟨3, 3⟩ ∧
    firstMinIn ⟨3, 4⟩ [⟨1, 1⟩, ⟨5, 5⟩, ⟨3, 3⟩, ⟨10, 10⟩] ⟨3, 3⟩ :=
  ⟨by decide,
   (nearest_point_to_spec ⟨3, 4⟩ [⟨1, 1⟩, ⟨5, 5⟩, ⟨3, 3⟩, ⟨10, 10⟩]).2
     ⟨3, 3⟩ (by decide)⟩

end Recti
